import Mathlib

/-!
Shallow embedding of `cli/mobycli/exec.go` (package `mobycli` of the
compose-cli delegation layer).

Strings are embedded as Lean `String`, and every operation the Go code
performs on them is implemented here as an executable recursion over the
underlying character list (`String.data`).  The docker identifiers, names
and listing records handled by that file are ASCII, so Go's byte indexing
and Lean's character indexing agree on every input considered here.

Operating-system effects (spawning the auxiliary listing processes,
environment lookups, the pipe, the scheduler) are passed in as explicit
parameters of the corresponding definitions; each definition's doc comment
states the correspondence with the Go source.
-/

/-- Character class `[a-z0-9]` of the container short-id regex built at
`exec.go:241` (`c.ShortId` followed by `[a-z0-9]*`). -/
def isLowerAlnum (c : Char) : Bool :=
  (('a' ≤ c) && (c ≤ 'z')) || (('0' ≤ c) && (c ≤ '9'))

/-- Boolean test that the first character list is a prefix of the second
(the primitive underlying Go's `strings.HasPrefix` and the anchored step of
leftmost regexp matching). -/
def charsPrefixB : List Char → List Char → Bool
  | [], _ => true
  | _ :: _, [] => false
  | a :: as, b :: bs => a == b && charsPrefixB as bs

/-- Boolean test that the first character list occurs as a contiguous
substring of the second (Go's `strings.Contains`, character level). -/
def charsInfixB : List Char → List Char → Bool
  | l, [] => charsPrefixB l []
  | l, b :: bs => charsPrefixB l (b :: bs) || charsInfixB l bs

/-- Go's `strings.Contains(s, sub)` (exec.go:254 and 256). -/
def goContains (s sub : String) : Bool :=
  charsInfixB sub.data s.data

/-- Whitespace as trimmed by Go's `strings.TrimSpace` (exec.go:126, 154,
179); the listing outputs only ever carry spaces and newlines, so the ASCII
cases suffice. -/
def isGoSpace (c : Char) : Bool :=
  c == ' ' || c == '\t' || c == '\n' || c == '\r'

/-- Go's `strings.TrimSpace` (exec.go:126, 154, 179). -/
def goTrimSpace (s : String) : String :=
  String.mk (((s.data.dropWhile isGoSpace).reverse.dropWhile isGoSpace).reverse)

/-- Accumulator form of `goSplitLines`; `acc` holds the current field in
reverse. -/
def splitLinesAux : List Char → List Char → List String
  | acc, [] => [String.mk acc.reverse]
  | acc, c :: rest =>
    if c == '\n' then String.mk acc.reverse :: splitLinesAux [] rest
    else splitLinesAux (c :: acc) rest

/-- Go's `strings.Split(s, "\n")` (exec.go:126, 154, 179). -/
def goSplitLines (s : String) : List String :=
  splitLinesAux [] s.data

/-- Go's `strings.TrimPrefix(s, pre)` (exec.go:161). -/
def goTrimPfx (s pre : String) : String :=
  if charsPrefixB pre.data s.data then String.mk (s.data.drop pre.data.length)
  else s

/-- The `enhance` function of exec.go:104-111: wraps `str` in the OSC 8
terminal-hyperlink envelope around the deeplink
`docker-desktop://dashboard/<pfx>?id=<id>`. -/
def enhance (pfx str id : String) : String :=
  let OSC := "\x1b]"
  let BEL := "\x07"
  let SEP := ";"
  let deeplink := "docker-desktop://dashboard/" ++ pfx ++ "?id=" ++ id
  String.join [OSC, "8", SEP, SEP, deeplink, BEL, str, OSC, "8", SEP, SEP, BEL]

/-- Skip JSON insignificant whitespace, as `encoding/json` does between
tokens. -/
def skipWs : List Char → List Char :=
  List.dropWhile isGoSpace

/-- Scan the body of a JSON string up to the closing quote, returning the
contents and the remainder.  The docker listing format templates of
exec.go:121, 149 and 174 emit plain identifier text, so escape sequences
(which `encoding/json` would additionally decode) are not modelled. -/
def scanStringBody : List Char → Option (List Char × List Char)
  | [] => none
  | c :: rest =>
    if c == '"' then some ([], rest)
    else (scanStringBody rest).map (fun p => (c :: p.1, p.2))

/-- Parse one `"key":"value"` member of a flat JSON object (the only shape
the listing templates produce; values are always strings). -/
def parseMember (cs : List Char) : Option ((String × String) × List Char) :=
  match skipWs cs with
  | '"' :: r1 =>
    match scanStringBody r1 with
    | none => none
    | some (key, r2) =>
      match skipWs r2 with
      | ':' :: r3 =>
        match skipWs r3 with
        | '"' :: r4 =>
          match scanStringBody r4 with
          | none => none
          | some (val, r5) => some ((String.mk key, String.mk val), r5)
        | _ => none
      | _ => none
  | _ => none

/-- Parse the comma-separated members of a JSON object after the opening
brace, consuming the closing brace.  The fuel argument only bounds the
number of members; each member consumes at least one character, so fuel
equal to the input length never runs out on an accepted input. -/
def parseMembers : Nat → List Char → Option (List (String × String) × List Char)
  | 0, _ => none
  | fuel + 1, cs =>
    match parseMember cs with
    | none => none
    | some (kv, rest) =>
      match skipWs rest with
      | ',' :: r2 => (parseMembers fuel r2).map (fun p => (kv :: p.1, p.2))
      | '\x7d' :: r2 => some ([kv], r2)
      | _ => none

/-- Parse a whole line as a flat JSON object with string values, the record
shape emitted by the listing sub-commands (exec.go:121, 149, 174).  Like
`encoding/json.Unmarshal`, trailing non-whitespace input is an error and a
line that is not a JSON object fails. -/
def parseJsonObject (s : String) : Option (List (String × String)) :=
  match skipWs s.data with
  | '\x7b' :: r1 =>
    match skipWs r1 with
    | '\x7d' :: r2 => if skipWs r2 = [] then some [] else none
    | _ =>
      match parseMembers (s.data.length + 1) r1 with
      | some (fields, rest) => if skipWs rest = [] then some fields else none
      | none => none
  | _ => none

/-- Field lookup in a parsed object: later duplicates win, absent keys give
the zero value `""`, exactly as `encoding/json.Unmarshal` fills a struct
field (the listing keys match the Go field names exactly, so the
case-insensitive fallback of `encoding/json` never fires here). -/
def jsonField (fields : List (String × String)) (key : String) : String :=
  (((fields.reverse.find? (fun p => p.1 == key)).map Prod.snd).getD "")

/-- Container record of exec.go:113-117. -/
structure Container where
  ShortId : String
  ID : String
  Names : String
  deriving DecidableEq

/-- Image record of exec.go:140-145 (`Respository` is the source's own
spelling). -/
structure Image where
  ShortId : String
  ID : String
  Tag : String
  Respository : String
  deriving DecidableEq

/-- Volume record of exec.go:168-170. -/
structure Volume where
  Name : String
  deriving DecidableEq

/-- One `json.Unmarshal` call of the container loader (exec.go:129):
parses a listing line into a `Container` whose `ShortId` is still the zero
value. -/
def unmarshalContainer (s : String) : Option Container :=
  (parseJsonObject s).map fun fs =>
    { ShortId := "", ID := jsonField fs "ID", Names := jsonField fs "Names" }

/-- One `json.Unmarshal` call of the image loader (exec.go:157). -/
def unmarshalImage (s : String) : Option Image :=
  (parseJsonObject s).map fun fs =>
    { ShortId := "", ID := jsonField fs "ID", Tag := jsonField fs "Tag",
      Respository := jsonField fs "Respository" }

/-- One `json.Unmarshal` call of the volume loader (exec.go:182). -/
def unmarshalVolume (s : String) : Option Volume :=
  (parseJsonObject s).map fun fs => { Name := jsonField fs "Name" }

/-- The per-line loop of `getContainers` (exec.go:127-135): skip lines that
fail to unmarshal, and derive `ShortId` by the slice `c.ID[:12]` — which,
as in Go, panics (`Except.error`) when the identifier is shorter than 12
characters. -/
def containersFromLines : List String → Except String (List Container)
  | [] => .ok []
  | l :: ls =>
    match unmarshalContainer l with
    | none => containersFromLines ls
    | some c =>
      if c.ID.data.length < 12 then
        .error "runtime error: slice bounds out of range"
      else
        (containersFromLines ls).map
          (fun cs => { c with ShortId := String.mk (c.ID.data.take 12) } :: cs)

/-- The `getContainers` function (exec.go:119-138).  `psOutput` is the
outcome of the auxiliary `ps --all --no-trunc --format ...` invocation:
`none` when `cmd.Output()` returned an error (the function then returns the
empty catalog), `some out` its stdout otherwise. -/
def getContainers (psOutput : Option String) : Except String (List Container) :=
  match psOutput with
  | none => .ok []
  | some out => containersFromLines (goSplitLines (goTrimSpace out))

/-- The per-line loop of `getImages` (exec.go:155-163): as for containers,
but the slice `strings.TrimPrefix(img.ID, "sha256:")[:12]` strips the hash
marker first and panics when the stripped identifier is shorter than 12
characters. -/
def imagesFromLines : List String → Except String (List Image)
  | [] => .ok []
  | l :: ls =>
    match unmarshalImage l with
    | none => imagesFromLines ls
    | some img =>
      if (goTrimPfx img.ID "sha256:").data.length < 12 then
        .error "runtime error: slice bounds out of range"
      else
        (imagesFromLines ls).map
          (fun is =>
            { img with
                ShortId := String.mk ((goTrimPfx img.ID "sha256:").data.take 12) } :: is)

/-- The `getImages` function (exec.go:147-166), OS effects as in
`getContainers`. -/
def getImages (lsOutput : Option String) : Except String (List Image) :=
  match lsOutput with
  | none => .ok []
  | some out => imagesFromLines (goSplitLines (goTrimSpace out))

/-- The per-line loop of `getVolumes` (exec.go:180-187): no short-id
derivation, so no panic is possible; failed lines are skipped. -/
def volumesFromLines : List String → List Volume
  | [] => []
  | l :: ls =>
    match unmarshalVolume l with
    | none => volumesFromLines ls
    | some v => v :: volumesFromLines ls

/-- The `getVolumes` function (exec.go:172-190). -/
def getVolumes (lsOutput : Option String) : List Volume :=
  match lsOutput with
  | none => []
  | some out => volumesFromLines (goSplitLines (goTrimSpace out))

/-- Leftmost match of a pattern `<lit>[tailCls]*` in a character list:
`lit` is the literal head of the pattern and `tailCls` the character class
it may greedily extend over.  Returns the text before the match, the
matched text, and the remainder after it; `none` when nothing matches.  An
empty `lit` never matches here; the records the loaders feed in carry
non-empty identifiers. -/
def firstMatch (lit : List Char) (tailCls : Char → Bool) :
    List Char → Option (List Char × List Char × List Char)
  | [] => none
  | c :: rest =>
    if lit ≠ [] ∧ charsPrefixB lit (c :: rest) = true then
      let rem := (c :: rest).drop lit.length
      let run := rem.takeWhile tailCls
      some ([], lit ++ run, rem.drop run.length)
    else
      (firstMatch lit tailCls rest).map (fun p => (c :: p.1, p.2.1, p.2.2))

/-- Leftmost, non-overlapping scan-and-replace: `rep` receives each
matched text (the expansion of the `$1` template group) and the scan
resumes after the match.  This is Go's `Regexp.ReplaceAllString` for the
two pattern shapes exec.go builds: `(<literal>[a-z0-9]*)` (exec.go:241)
and `(<literal>)` (exec.go:244, 249, 255).  The fuel only bounds the
number of replacements; every match consumes at least one character, so
fuel equal to the input length never runs out. -/
def replaceLoop (lit : List Char) (tailCls : Char → Bool) (rep : List Char → List Char) :
    Nat → List Char → List Char
  | 0, s => s
  | fuel + 1, s =>
    match firstMatch lit tailCls s with
    | none => s
    | some (bef, matched, aft) =>
      bef ++ rep matched ++ replaceLoop lit tailCls rep fuel aft

/-- String-level wrapper of `replaceLoop`: the one `ReplaceAllString` call
of each rewriting pass.  Record fields are interpolated into the pattern
by `regexp.MustCompile("(" + field + ")")`; docker identifiers, names,
repositories and tags contain no regexp metacharacters, so the pattern
head matches the field text literally. -/
def replaceAllString (lit : String) (tailCls : Char → Bool) (rep : String → String)
    (s : String) : String :=
  String.mk
    (replaceLoop lit.data tailCls (fun m => (rep (String.mk m)).data) s.data.length s.data)

/-- The short-identifier rewrite of one container record (exec.go:241-242):
pattern `(<ShortId>[a-z0-9]*)`, replacement `enhance("containers", "$1",
c.ID)`. -/
def containerShortIdPass (c : Container) (line : String) : String :=
  replaceAllString c.ShortId isLowerAlnum (fun m => enhance "containers" m c.ID) line

/-- One container record's full rewrite in the scan loop (exec.go:240-246):
the short-identifier pass, then the display-name pattern `(<Names>)` with
the same replacement. -/
def containerStep (c : Container) (line : String) : String :=
  replaceAllString c.Names (fun _ => false) (fun m => enhance "containers" m c.ID)
    (containerShortIdPass c line)

/-- One volume record's rewrite (exec.go:248-251). -/
def volumeStep (v : Volume) (line : String) : String :=
  replaceAllString v.Name (fun _ => false) (fun m => enhance "volumes" m v.Name) line

/-- One image record's rewrite (exec.go:253-261): guarded by
`strings.Contains(line, img.Respository)`; the opaque id is
`img.ID + "-" + img.Tag` when the line also contains the tag, else
`img.ID + "-latest"`. -/
def imageStep (img : Image) (line : String) : String :=
  if goContains line img.Respository then
    if goContains line img.Tag then
      replaceAllString img.Respository (fun _ => false)
        (fun m => enhance "images" m (img.ID ++ "-" ++ img.Tag)) line
    else
      replaceAllString img.Respository (fun _ => false)
        (fun m => enhance "images" m (img.ID ++ "-latest")) line
  else line

/-- The three record collections held by the scan goroutine of `RunDocker`
(the locals `cons`, `vols`, `imgs` of exec.go:195-197). -/
structure Catalog where
  cons : List Container
  vols : List Volume
  imgs : List Image

/-- The rewriting applied to one scanned line (exec.go:239-265): containers
in order, then volumes, then images, each pass running on the output of the
previous one. -/
def processLine (cat : Catalog) (line : String) : String :=
  let l1 := cat.cons.foldl (fun l c => containerStep c l) line
  let l2 := cat.vols.foldl (fun l v => volumeStep v l) l1
  cat.imgs.foldl (fun l i => imageStep i l) l2

/-- Lines printed by the scan goroutine of exec.go:230-270 when it has
consumed `lines` from the pipe: when `args[0] == "run"` (`isRun`) the
catalog is refreshed before each line (`refreshCat i` is the snapshot
loaded before line `i`), otherwise the catalog loaded at exec.go:195-197
(`initCat`) is used throughout. -/
def scannerLines (isRun : Bool) (initCat : Catalog) (refreshCat : Nat → Catalog)
    (lines : List String) : List String :=
  lines.enum.map (fun p => processLine (if isRun then refreshCat p.1 else initCat) p.2)

/-- Observable outcome of one `RunDocker` call (exec.go:193-281): the lines
written to real stdout before it returns, whether it closed the write end
of the pipe (exec.go:277), whether it waited for the scan goroutine's
completion signal (exec.go:278), and its return value. -/
structure RunOutcome where
  emitted : List String
  closedPipe : Bool
  awaitedDrain : Bool
  result : Option String
  deriving DecidableEq

/-- Control flow of `RunDocker` after spawning the child (exec.go:272-280).
`childLines` are the lines the child wrote to the pipe and `childErr` the
outcome of `cmd.Run()`.  On success the function closes the pipe and blocks
on `done`, so the goroutine has processed every buffered line before the
return.  On error it returns at exec.go:274 without either step; nothing
orders the goroutine relative to that return, so the number of lines
already printed is an arbitrary scheduler-dependent count `sched`. -/
def runDockerModel (isRun : Bool) (initCat : Catalog) (refreshCat : Nat → Catalog)
    (childLines : List String) (childErr : Option String) (sched : Nat) : RunOutcome :=
  match childErr with
  | none =>
    { emitted := scannerLines isRun initCat refreshCat childLines,
      closedPipe := true, awaitedDrain := true, result := none }
  | some e =>
    { emitted := (scannerLines isRun initCat refreshCat childLines).take sched,
      closedPipe := false, awaitedDrain := false, result := some e }

/-- Signals as seen by the relay goroutine.  `sigurg` is the runtime's
preemption signal singled out by the comment at exec.go:212-214. -/
inductive GoSignal
  | sigurg
  | sigint
  | sigterm
  | named (s : String)
  deriving DecidableEq

/-- Modelled from the spec: `isRuntimeSig` lives in the platform files
(`exec_unix.go` / `exec_windows.go`) that are not under `src/`; per the
spec (§4.2, glossary) and the comment at exec.go:212-214, it recognises
exactly the host runtime's internal-preemption signal (SIGURG on go1.14+
Linux). -/
def isRuntimeSig : GoSignal → Bool
  | .sigurg => true
  | _ => false

/-- Events consumed by the relay goroutine's `select` (exec.go:205-223): a
signal delivery (with whether `cmd.Process` was non-nil at that moment) or
the completion notification on `childExit`. -/
inductive RelayEvent
  | signal (sig : GoSignal) (processStarted : Bool)
  | childExit
  deriving DecidableEq

/-- Signals the relay goroutine forwards to the child, in order, given the
sequence of events it consumes (exec.go:205-223): it drops signals arriving
before the process exists, drops runtime-preemption signals, forwards
everything else verbatim, and returns — forwarding nothing further — at the
first completion notification. -/
def relayForwarded : List RelayEvent → List GoSignal
  | [] => []
  | .childExit :: _ => []
  | .signal s started :: rest =>
    (if started && !isRuntimeSig s then [s] else []) ++ relayForwarded rest

/-- Outcome of executable-path resolution: a resolved path, or process
termination (`os.Exit(1)`) after printing the error and the search path to
stderr. -/
inductive ResolveOutcome
  | ok (path : String)
  | exitPrintPath (searchPath : String)
  deriving DecidableEq

/-- The `comDockerCli` function (exec.go:283-300) with its OS interactions
as parameters: `envOverride` is `os.Getenv("DOCKER_COM_DOCKER_CLI")` (`""`
when unset), `sibling` the result of `findBinary(ComDockerCli)` (`""` when
no sibling binary resolves), `lookPath` the outcome of
`resolvepath.LookPath` (`none` on error), and `envPATH` is
`os.Getenv("PATH")`, printed before exiting when nothing resolves. -/
def comDockerCli (envOverride sibling : String) (lookPath : Option String)
    (envPATH : String) : ResolveOutcome :=
  if envOverride ≠ "" then .ok envOverride
  else if sibling ≠ "" then .ok sibling
  else
    match lookPath with
    | some p => .ok p
    | none => .exitPrintPath envPATH

/-- Opening envelope of the OSC 8 terminal-hyperlink convention the spec's
decoration-format sentence refers to: `ESC ] 8 ; ; <uri> BEL`. -/
def hyperlinkOpen (uri : String) : String :=
  "\x1b]8;;" ++ uri ++ "\x07"

/-- Closing envelope of the OSC 8 terminal-hyperlink convention:
`ESC ] 8 ; ; BEL`. -/
def hyperlinkClose : String :=
  "\x1b]8;;\x07"

/-- Synthetic URI in the exact shape claimed by the spec's
decoration-format sentence: `<scheme>://dashboard/<kind>/<opaque-id>`,
path-separated. -/
def specPathUri (scheme kind opaqueId : String) : String :=
  scheme ++ "://dashboard/" ++ kind ++ "/" ++ opaqueId

/-! Helper lemmas relating the executable substring and replacement
primitives to Mathlib's list predicates. -/

theorem charsPrefixB_iff (l s : List Char) : charsPrefixB l s = true ↔ l <+: s := by
  induction l generalizing s with
  | nil => simp [charsPrefixB, List.nil_prefix]
  | cons a as ih =>
    cases s with
    | nil => simp [charsPrefixB]
    | cons b bs => simp [charsPrefixB, List.cons_prefix_cons, ih, And.comm]

theorem charsInfixB_iff (l s : List Char) : charsInfixB l s = true ↔ l <:+: s := by
  induction s with
  | nil =>
    show charsPrefixB l [] = true ↔ _
    rw [charsPrefixB_iff]
    simp [List.infix_nil]
  | cons b bs ih =>
    show (charsPrefixB l (b :: bs) || charsInfixB l bs) = true ↔ _
    rw [Bool.or_eq_true, charsPrefixB_iff, ih, List.infix_cons_iff]

theorem goContains_iff (s sub : String) :
    goContains s sub = true ↔ sub.data <:+: s.data :=
  charsInfixB_iff sub.data s.data

theorem goContains_eq_false (s sub : String)
    (h : goContains s sub = false) : ¬ sub.data <:+: s.data := by
  intro hin
  have htrue := (goContains_iff s sub).mpr hin
  rw [h] at htrue
  exact Bool.noConfusion htrue

theorem firstMatch_eq_none (lit : List Char) (t : Char → Bool) (s : List Char)
    (h : ¬ lit <:+: s) : firstMatch lit t s = none := by
  induction s with
  | nil => rfl
  | cons c rest ih =>
    have hcond : ¬ (lit ≠ [] ∧ charsPrefixB lit (c :: rest) = true) := by
      rintro ⟨hne, hpre⟩
      exact h ((charsPrefixB_iff _ _).mp hpre).isInfix
    have hrest : ¬ lit <:+: rest := fun hi => h (List.infix_cons hi)
    simp only [firstMatch]
    rw [if_neg hcond, ih hrest]
    rfl

theorem firstMatch_eq_some (lit : List Char) (t : Char → Bool) (s : List Char)
    (hne : lit ≠ []) (hin : lit <:+: s) :
    ∃ bef run aft, firstMatch lit t s = some (bef, lit ++ run, aft) ∧
      ∀ x ∈ run, t x = true := by
  induction s with
  | nil => exact absurd (List.infix_nil.mp hin) hne
  | cons c rest ih =>
    by_cases hpre : charsPrefixB lit (c :: rest) = true
    · refine ⟨[], ((c :: rest).drop lit.length).takeWhile t,
        (((c :: rest).drop lit.length).drop
          (((c :: rest).drop lit.length).takeWhile t).length), ?_, ?_⟩
      · simp only [firstMatch]
        rw [if_pos ⟨hne, hpre⟩]
      · intro x hx
        exact List.mem_takeWhile_imp hx
    · have hrest : lit <:+: rest := by
        rcases List.infix_cons_iff.mp hin with hp | hi
        · exact absurd ((charsPrefixB_iff _ _).mpr hp) hpre
        · exact hi
      obtain ⟨bef, run, aft, heq, hall⟩ := ih hrest
      refine ⟨c :: bef, run, aft, ?_, hall⟩
      simp only [firstMatch]
      rw [if_neg (by rintro ⟨_, hp⟩; exact hpre hp), heq]
      rfl

theorem replaceLoop_eq_self (lit : List Char) (t : Char → Bool)
    (rep : List Char → List Char) (fuel : Nat) (s : List Char)
    (h : ¬ lit <:+: s) : replaceLoop lit t rep fuel s = s := by
  cases fuel with
  | zero => rfl
  | succ k =>
    simp only [replaceLoop]
    rw [firstMatch_eq_none lit t s h]

theorem replaceLoop_contains (lit : List Char) (t : Char → Bool)
    (rep : List Char → List Char) (fuel : Nat) (s : List Char)
    (hne : lit ≠ []) (hin : lit <:+: s) (hf : 1 ≤ fuel) :
    ∃ run, (∀ x ∈ run, t x = true) ∧
      rep (lit ++ run) <:+: replaceLoop lit t rep fuel s := by
  cases fuel with
  | zero => omega
  | succ k =>
    obtain ⟨bef, run, aft, heq, hall⟩ := firstMatch_eq_some lit t s hne hin
    refine ⟨run, hall, ?_⟩
    simp only [replaceLoop]
    rw [heq]
    exact List.infix_append _ _ _

theorem replaceAllString_eq_self (lit : String) (t : Char → Bool)
    (rep : String → String) (s : String)
    (h : goContains s lit = false) : replaceAllString lit t rep s = s := by
  apply String.ext
  exact replaceLoop_eq_self lit.data t _ s.data.length s.data (goContains_eq_false s lit h)

theorem replaceAllString_contains (lit : String) (t : Char → Bool)
    (rep : String → String) (s : String)
    (hne : lit ≠ "") (hin : goContains s lit = true) :
    ∃ run : List Char, (∀ x ∈ run, t x = true) ∧
      goContains (replaceAllString lit t rep s) (rep (lit ++ String.mk run)) = true := by
  have hlit : lit.data ≠ [] := fun h0 => hne (String.ext h0)
  have hinf : lit.data <:+: s.data := (goContains_iff s lit).mp hin
  have hlen : 1 ≤ s.data.length := by
    cases hsd : s.data with
    | nil => rw [hsd] at hinf; exact absurd (List.infix_nil.mp hinf) hlit
    | cons a as => simp
  obtain ⟨run, hall, hrep⟩ :=
    replaceLoop_contains lit.data t (fun m => (rep (String.mk m)).data)
      s.data.length s.data hlit hinf hlen
  refine ⟨run, hall, ?_⟩
  apply (goContains_iff _ _).mpr
  have hdata : String.mk (lit.data ++ run) = lit ++ String.mk run := by
    apply String.ext
    simp [String.data_append]
  rw [← hdata]
  exact hrep

theorem foldl_fixed {α : Type} (f : String → α → String) (l : List α) (x : String)
    (h : ∀ a ∈ l, f x a = x) : l.foldl f x = x := by
  induction l with
  | nil => rfl
  | cons a as ih =>
    rw [List.foldl_cons, h a (by simp)]
    exact ih fun b hb => h b (by simp [hb])

theorem relayForwarded_drop (pre post : List RelayEvent) (s : GoSignal) (b : Bool)
    (h : (b && !isRuntimeSig s) = false) :
    relayForwarded (pre ++ RelayEvent.signal s b :: post) =
      relayForwarded (pre ++ post) := by
  induction pre with
  | nil => simp [relayForwarded, h]
  | cons e rest ih =>
    cases e with
    | childExit => simp [relayForwarded]
    | signal s' b' =>
      simp only [List.cons_append, relayForwarded, List.append_eq]
      rw [ih]

theorem relayForwarded_forward (pre post : List RelayEvent) (s : GoSignal)
    (hpre : RelayEvent.childExit ∉ pre) (hs : isRuntimeSig s = false) :
    relayForwarded (pre ++ RelayEvent.signal s true :: post) =
      relayForwarded pre ++ s :: relayForwarded post := by
  induction pre with
  | nil => simp [relayForwarded, hs]
  | cons e rest ih =>
    cases e with
    | childExit => exact absurd (by simp) hpre
    | signal s' b' =>
      simp only [List.cons_append, relayForwarded, List.append_eq]
      rw [ih (fun hm => hpre (by simp [hm]))]
      simp [List.append_assoc]

theorem relayForwarded_stop (pre post : List RelayEvent) :
    relayForwarded (pre ++ RelayEvent.childExit :: post) = relayForwarded pre := by
  induction pre with
  | nil => simp [relayForwarded]
  | cons e rest ih =>
    cases e with
    | childExit => simp [relayForwarded]
    | signal s' b' =>
      simp only [List.cons_append, relayForwarded, List.append_eq]
      rw [ih]

/-! Claim theorems. -/

/-- C1 fails as stated on the code: the claimed listing output
`{"ID":"abc"}` / `NOT-JSON` / `{"ID":"def"}` does not yield a two-record
catalog — the first line parses, but the short-id slice `c.ID[:12]` at
exec.go:133 indexes past the end of the 3-character identifier and the
loader panics, aborting the build. -/
theorem c1_counterexample :
    getContainers
        (some "\x7b\"ID\":\"abc\"\x7d\nNOT-JSON\n\x7b\"ID\":\"def\"\x7d") =
      Except.error "runtime error: slice bounds out of range" := by
  rfl

/-- C1 (amended): each listing line is parsed independently and a line
that fails to parse is silently skipped without aborting the build,
provided every successfully parsed record's full identifier has at least
12 characters — then a listing of a well-formed line, a malformed line and
a well-formed line yields a catalog of exactly the two well-formed
records. -/
theorem c1_amended (l1 m l2 : String) (c1 c2 : Container)
    (h1 : unmarshalContainer l1 = some c1) (hm : unmarshalContainer m = none)
    (h2 : unmarshalContainer l2 = some c2)
    (hl1 : 12 ≤ c1.ID.data.length) (hl2 : 12 ≤ c2.ID.data.length) :
    containersFromLines [l1, m, l2] =
      .ok [{ c1 with ShortId := String.mk (c1.ID.data.take 12) },
           { c2 with ShortId := String.mk (c2.ID.data.take 12) }] := by
  simp only [containersFromLines, h1, hm, h2]
  rw [if_neg (by omega : ¬ c1.ID.data.length < 12),
    if_neg (by omega : ¬ c2.ID.data.length < 12)]
  rfl

/-- Witness for C1 (amended): a concrete listing with 12-character
identifiers and a malformed middle line yields exactly the two records. -/
theorem c1_amended_witness :
    containersFromLines
        ["\x7b\"ID\":\"abcdefabcdef\"\x7d", "NOT-JSON", "\x7b\"ID\":\"defdefdefdef\"\x7d"] =
      .ok [{ ShortId := "abcdefabcdef", ID := "abcdefabcdef", Names := "" },
           { ShortId := "defdefdefdef", ID := "defdefdefdef", Names := "" }] :=
  c1_amended "\x7b\"ID\":\"abcdefabcdef\"\x7d" "NOT-JSON" "\x7b\"ID\":\"defdefdefdef\"\x7d"
    { ShortId := "", ID := "abcdefabcdef", Names := "" }
    { ShortId := "", ID := "defdefdefdef", Names := "" }
    (by rfl) (by rfl) (by rfl) (by decide) (by decide)

/-- C2 fails as stated: when the child writes one line and exits with a
non-zero status, `RunDocker` returns from exec.go:274 without closing the
pipe's write end and without waiting on `done`; under a scheduling where
the goroutine has processed none of the buffered output, zero enriched
lines have been emitted although the child wrote one. -/
theorem c2_counterexample :
    (runDockerModel false ⟨[], [], []⟩ (fun _ => ⟨[], [], []⟩) ["one line"]
        (some "exit status 1") 0).emitted.length = 0 ∧
    (["one line"] : List String).length = 1 :=
  ⟨rfl, rfl⟩

/-- C2 (amended): when the child writes its lines and then exits
successfully, `RunDocker` closes the pipe and waits for the scan goroutine
to drain it (exec.go:277-278), so exactly N enriched lines are emitted
before the call returns, for every scheduling — even one where the child
exited before the goroutine had processed any buffered content. -/
theorem c2_amended (isRun : Bool) (initCat : Catalog) (refreshCat : Nat → Catalog)
    (childLines : List String) (sched : Nat) :
    (runDockerModel isRun initCat refreshCat childLines none sched).emitted.length =
      childLines.length := by
  simp [runDockerModel, scannerLines, List.enum_length]

/-- C3 fails as stated: the synthetic URI `enhance` builds is
`docker-desktop://dashboard/<kind>?id=<opaque-id>` (exec.go:108), not the
claimed path form `<scheme>://dashboard/<kind>/<opaque-id>`: the output
for kind "containers" and opaque id "id1" contains no occurrence of
`dashboard/containers/id1` (so no URI of the claimed shape, whatever the
scheme), and differs from the claimed envelope for the scheme the code
uses. -/
theorem c3_counterexample :
    goContains (enhance "containers" "abc" "id1") "dashboard/containers/id1" = false ∧
    enhance "containers" "abc" "id1" ≠
      hyperlinkOpen (specPathUri "docker-desktop" "containers" "id1") ++ "abc" ++
        hyperlinkClose :=
  ⟨by rfl, by decide⟩

/-- C3 (amended): the decoration is the OSC 8 terminal-hyperlink envelope
wrapping the synthetic URI
`docker-desktop://dashboard/<kind>?id=<opaque-id>` around the matched
text, which stays visible, unaltered, between the opening and closing
escape sequences. -/
theorem c3_amended (pfx str id : String) :
    enhance pfx str id =
      hyperlinkOpen ("docker-desktop://dashboard/" ++ pfx ++ "?id=" ++ id) ++ str ++
        hyperlinkClose := by
  have h1 : ("\x1b]8;;" : String) = "\x1b]" ++ "8" ++ ";" ++ ";" := by decide
  have h2 : ("\x1b]8;;\x07" : String) = "\x1b]" ++ "8" ++ ";" ++ ";" ++ "\x07" := by decide
  show ("" ++ "\x1b]" ++ "8" ++ ";" ++ ";" ++
      ("docker-desktop://dashboard/" ++ pfx ++ "?id=" ++ id) ++ "\x07" ++ str ++
      "\x1b]" ++ "8" ++ ";" ++ ";" ++ "\x07") = _
  simp only [hyperlinkOpen, hyperlinkClose, h1, h2]
  simp [String.append_assoc]

/-- C4: for every container record and every input line containing the
record's short identifier, the short-identifier pass (exec.go:241-242)
rewrites a match — the short identifier plus zero or more trailing
`[a-z0-9]` characters — into the decoration envelope wrapping exactly that
matched substring, tagged with kind "containers" and carrying the record's
full identifier in the synthetic URI. -/
theorem c4_short_id_rewrite (c : Container) (line : String)
    (hne : c.ShortId ≠ "") (hin : goContains line c.ShortId = true) :
    ∃ t : List Char, (∀ x ∈ t, isLowerAlnum x = true) ∧
      goContains (containerShortIdPass c line)
        (enhance "containers" (c.ShortId ++ String.mk t) c.ID) = true := by
  obtain ⟨run, hall, hcont⟩ := replaceAllString_contains c.ShortId isLowerAlnum
    (fun m => enhance "containers" m c.ID) line hne hin
  exact ⟨run, hall, hcont⟩

/-- Witness for C4: a concrete container record and a line carrying its
short identifier with two trailing hex characters. -/
theorem c4_witness :
    ∃ t : List Char, (∀ x ∈ t, isLowerAlnum x = true) ∧
      goContains
        (containerShortIdPass
          { ShortId := "abcdefabcdef", ID := "abcdefabcdef0123", Names := "web" }
          "up abcdefabcdef12 done")
        (enhance "containers" ("abcdefabcdef" ++ String.mk t) "abcdefabcdef0123") =
          true :=
  c4_short_id_rewrite
    { ShortId := "abcdefabcdef", ID := "abcdefabcdef0123", Names := "web" }
    "up abcdefabcdef12 done" (by decide) (by rfl)

/-- C5: for an image record with non-empty repository, a line containing
the repository and the tag has the repository rewritten into a decoration
of kind "images" with opaque id `<ID>-<Tag>`; a line containing the
repository but not the tag gets opaque id `<ID>-latest`; a line not
containing the repository is left unchanged by that record's pass
(exec.go:253-261). -/
theorem c5_image_rewrite (img : Image) (line : String) (hne : img.Respository ≠ "") :
    (goContains line img.Respository = true → goContains line img.Tag = true →
      goContains (imageStep img line)
        (enhance "images" img.Respository (img.ID ++ "-" ++ img.Tag)) = true) ∧
    (goContains line img.Respository = true → goContains line img.Tag = false →
      goContains (imageStep img line)
        (enhance "images" img.Respository (img.ID ++ "-latest")) = true) ∧
    (goContains line img.Respository = false → imageStep img line = line) := by
  have hmk : ∀ s : String, s ++ String.mk [] = s := by
    intro s
    apply String.ext
    simp [String.data_append]
  refine ⟨?_, ?_, ?_⟩
  · intro hr ht
    obtain ⟨run, hall, hcont⟩ := replaceAllString_contains img.Respository (fun _ => false)
      (fun m => enhance "images" m (img.ID ++ "-" ++ img.Tag)) line hne hr
    have hrun : run = [] := by
      cases run with
      | nil => rfl
      | cons a as => exact absurd (hall a (by simp)) (by simp)
    rw [hrun, hmk] at hcont
    simp only [imageStep]
    rw [if_pos hr, if_pos ht]
    exact hcont
  · intro hr ht
    obtain ⟨run, hall, hcont⟩ := replaceAllString_contains img.Respository (fun _ => false)
      (fun m => enhance "images" m (img.ID ++ "-latest")) line hne hr
    have hrun : run = [] := by
      cases run with
      | nil => rfl
      | cons a as => exact absurd (hall a (by simp)) (by simp)
    rw [hrun, hmk] at hcont
    simp only [imageStep]
    rw [if_pos hr, if_neg (by simp [ht])]
    exact hcont
  · intro hr
    simp only [imageStep]
    rw [if_neg (by simp [hr])]

/-- Witness for C5: a concrete image record against three lines — one with
repository and tag, one with repository only, one with neither. -/
theorem c5_witness :
    goContains
        (imageStep { ShortId := "", ID := "sha256:ff", Tag := "v1", Respository := "myapp" }
          "pull myapp:v1 done")
        (enhance "images" "myapp" ("sha256:ff" ++ "-" ++ "v1")) = true ∧
    goContains
        (imageStep { ShortId := "", ID := "sha256:ff", Tag := "v1", Respository := "myapp" }
          "pull myapp now")
        (enhance "images" "myapp" ("sha256:ff" ++ "-latest")) = true ∧
    imageStep { ShortId := "", ID := "sha256:ff", Tag := "v1", Respository := "myapp" }
        "pull other" = "pull other" :=
  ⟨(c5_image_rewrite _ "pull myapp:v1 done" (by decide)).1 (by rfl) (by rfl),
   (c5_image_rewrite _ "pull myapp now" (by decide)).2.1 (by rfl) (by rfl),
   (c5_image_rewrite _ "pull other" (by decide)).2.2 (by rfl)⟩

/-- C6: the relay loop (exec.go:205-223) drops a signal received before the
child process exists, drops the runtime's internal-preemption signal
whether or not the process exists, forwards every other signal verbatim
when received before the completion notification, and forwards nothing at
or after the first completion notification. -/
theorem c6_signal_relay (pre post : List RelayEvent) (s : GoSignal) (b : Bool) :
    (relayForwarded (pre ++ RelayEvent.signal s false :: post) =
      relayForwarded (pre ++ post)) ∧
    (isRuntimeSig s = true →
      relayForwarded (pre ++ RelayEvent.signal s b :: post) =
        relayForwarded (pre ++ post)) ∧
    (RelayEvent.childExit ∉ pre → isRuntimeSig s = false →
      relayForwarded (pre ++ RelayEvent.signal s true :: post) =
        relayForwarded pre ++ s :: relayForwarded post) ∧
    (relayForwarded (pre ++ RelayEvent.childExit :: post) = relayForwarded pre) := by
  refine ⟨?_, ?_, ?_, ?_⟩
  · exact relayForwarded_drop pre post s false (by simp)
  · intro hrt
    exact relayForwarded_drop pre post s b (by simp [hrt])
  · intro hpre hs
    exact relayForwarded_forward pre post s hpre hs
  · exact relayForwarded_stop pre post

/-- Witness for C6: a SIGTERM received after a (dropped) SIGURG and before
the completion notification is forwarded; the SIGINT received after the
notification is not. -/
theorem c6_witness :
    relayForwarded
        ([RelayEvent.signal GoSignal.sigurg true] ++ RelayEvent.signal GoSignal.sigterm true ::
          [RelayEvent.childExit, RelayEvent.signal GoSignal.sigint true]) =
      relayForwarded [RelayEvent.signal GoSignal.sigurg true] ++ GoSignal.sigterm ::
        relayForwarded [RelayEvent.childExit, RelayEvent.signal GoSignal.sigint true] :=
  (c6_signal_relay [RelayEvent.signal GoSignal.sigurg true]
      [RelayEvent.childExit, RelayEvent.signal GoSignal.sigint true]
      GoSignal.sigterm true).2.2.1 (by decide) (by rfl)

/-- C7: a line containing none of the catalog's recognizable substrings —
no container short identifier or display name, no volume name, no image
repository — passes through every rewriting pass unchanged, so the line
written to real stdout is identical to the line read from the child
(exec.go:239-267). -/
theorem c7_no_match_identity (cat : Catalog) (line : String)
    (hc : ∀ c ∈ cat.cons,
      goContains line c.ShortId = false ∧ goContains line c.Names = false)
    (hv : ∀ v ∈ cat.vols, goContains line v.Name = false)
    (hi : ∀ i ∈ cat.imgs, goContains line i.Respository = false) :
    processLine cat line = line := by
  have h1 : cat.cons.foldl (fun l c => containerStep c l) line = line := by
    apply foldl_fixed
    intro c hcm
    have hpass : containerShortIdPass c line = line :=
      replaceAllString_eq_self _ _ _ _ (hc c hcm).1
    show replaceAllString c.Names (fun _ => false) (fun m => enhance "containers" m c.ID)
        (containerShortIdPass c line) = line
    rw [hpass]
    exact replaceAllString_eq_self _ _ _ _ (hc c hcm).2
  have h2 : cat.vols.foldl (fun l v => volumeStep v l) line = line := by
    apply foldl_fixed
    intro v hvm
    exact replaceAllString_eq_self _ _ _ _ (hv v hvm)
  have h3 : cat.imgs.foldl (fun l i => imageStep i l) line = line := by
    apply foldl_fixed
    intro i him
    simp only [imageStep]
    rw [if_neg (by simp [hi i him])]
  show cat.imgs.foldl (fun l i => imageStep i l)
      (cat.vols.foldl (fun l v => volumeStep v l)
        (cat.cons.foldl (fun l c => containerStep c l) line)) = line
  rw [h1, h2, h3]

/-- Witness for C7: a populated catalog and a line sharing no identifier
substring with it pass through unchanged. -/
theorem c7_witness :
    processLine
        ⟨[{ ShortId := "abcdefabcdef", ID := "abcdefabcdef0123", Names := "web" }],
         [{ Name := "datavol" }],
         [{ ShortId := "", ID := "sha256:ff", Tag := "v1", Respository := "myapp" }]⟩
        "Status: OK" = "Status: OK" :=
  c7_no_match_identity _ _ (by decide) (by decide) (by decide)

/-- C8: executable resolution (exec.go:283-300) tries the override
environment variable, then the sibling of the current executable, then the
search path, in that order; when none resolves the process exits non-zero
with the search path printed.  Catalog load failures and record parse
failures never surface: a failed listing invocation yields the empty
collection for its kind (exec.go:122-125, 150-153, 175-178) and a
malformed line is skipped. -/
theorem c8_resolution (v sib q path b : String) (lp : Option String)
    (ls : List String)
    (hv : v ≠ "") (hs : sib ≠ "") (hb : unmarshalContainer b = none) :
    comDockerCli v sib lp path = .ok v ∧
    comDockerCli "" sib lp path = .ok sib ∧
    comDockerCli "" "" (some q) path = .ok q ∧
    comDockerCli "" "" none path = .exitPrintPath path ∧
    getContainers none = .ok [] ∧
    getImages none = .ok [] ∧
    getVolumes none = [] ∧
    containersFromLines (b :: ls) = containersFromLines ls := by
  refine ⟨?_, ?_, rfl, rfl, rfl, rfl, rfl, ?_⟩
  · simp [comDockerCli, hv]
  · simp [comDockerCli, hs]
  · simp only [containersFromLines, hb]

/-- Witness for C8: concrete paths for the resolution order and a
malformed listing line that is skipped. -/
theorem c8_witness :
    comDockerCli "/custom/cli" "/opt/cli" (some "/usr/bin/cli") "/usr/bin" =
        .ok "/custom/cli" ∧
    comDockerCli "" "/opt/cli" (some "/usr/bin/cli") "/usr/bin" = .ok "/opt/cli" ∧
    containersFromLines ["NOT-JSON"] = containersFromLines [] := by
  have h := c8_resolution "/custom/cli" "/opt/cli" "/usr/bin/cli" "/usr/bin" "NOT-JSON"
    (some "/usr/bin/cli") [] (by decide) (by decide) (by rfl)
  exact ⟨h.1, h.2.1, h.2.2.2.2.2.2.2⟩

/-- C9: a listing line that parses successfully but whose full identifier
— after stripping the "sha256:" marker, for images — is shorter than 12
characters makes the short-id slice (exec.go:133, 161) index past the end
of the string, so the loader panics instead of skipping or truncating the
record; graceful skipping applies only to lines that fail JSON parsing. -/
theorem c9_short_id_panics (l m b : String) (c : Container) (img : Image)
    (ls : List String)
    (hc : unmarshalContainer l = some c) (hlen : c.ID.data.length < 12)
    (hi : unmarshalImage m = some img)
    (hilen : (goTrimPfx img.ID "sha256:").data.length < 12)
    (hb : unmarshalContainer b = none) :
    containersFromLines (l :: ls) =
        .error "runtime error: slice bounds out of range" ∧
    imagesFromLines (m :: ls) =
        .error "runtime error: slice bounds out of range" ∧
    containersFromLines (b :: ls) = containersFromLines ls := by
  refine ⟨?_, ?_, ?_⟩
  · simp only [containersFromLines, hc]
    rw [if_pos hlen]
  · simp only [imagesFromLines, hi]
    rw [if_pos hilen]
  · simp only [containersFromLines, hb]

/-- Witness for C9: a 3-character container identifier and an image whose
identifier is 3 characters after stripping "sha256:" both panic; a
malformed line is skipped. -/
theorem c9_witness :
    containersFromLines ["\x7b\"ID\":\"abc\"\x7d"] =
        .error "runtime error: slice bounds out of range" ∧
    imagesFromLines ["\x7b\"ID\":\"sha256:abc\"\x7d"] =
        .error "runtime error: slice bounds out of range" ∧
    containersFromLines ["NOT-JSON"] = containersFromLines [] :=
  c9_short_id_panics "\x7b\"ID\":\"abc\"\x7d" "\x7b\"ID\":\"sha256:abc\"\x7d" "NOT-JSON"
    { ShortId := "", ID := "abc", Names := "" }
    { ShortId := "", ID := "sha256:abc", Tag := "", Respository := "" } []
    (by rfl) (by decide) (by rfl) (by decide) (by rfl)

/-- C10: when the child fails, `RunDocker` returns the error at exec.go:274
without closing the pipe's write end and without waiting for the scan
goroutine, so under some scheduling no buffered line is ever emitted; the
close-then-drain sequence (exec.go:277-278) runs only on the successful
path. -/
theorem c10_error_path (isRun : Bool) (initCat : Catalog) (refreshCat : Nat → Catalog)
    (childLines : List String) (e : String) (sched : Nat) :
    (runDockerModel isRun initCat refreshCat childLines (some e) sched).result = some e ∧
    (runDockerModel isRun initCat refreshCat childLines (some e) sched).closedPipe
        = false ∧
    (runDockerModel isRun initCat refreshCat childLines (some e) sched).awaitedDrain
        = false ∧
    (runDockerModel isRun initCat refreshCat childLines (some e) 0).emitted = [] ∧
    (runDockerModel isRun initCat refreshCat childLines none sched).closedPipe = true ∧
    (runDockerModel isRun initCat refreshCat childLines none sched).awaitedDrain
        = true :=
  ⟨rfl, rfl, rfl, by simp [runDockerModel], rfl, rfl⟩
